import Mathlib

/-!
# Verification of the `todos` application

A shallow embedding of the todo manager: an Express/MongoDB REST backend
(`backend/server.js`) and a React client (`frontend/src/App.jsx`, plus a
demo-mode variant of the same component), together with the client-side
utility `filterTodos` (`src/utils/todoUtils.js`).

Server model. The MongoDB collection is a list of documents in natural
(insertion) order; `insertOne` appends, `find()` returns the list,
`findOneAndUpdate` / `findOneAndDelete` act on the first document matching
the `_id` filter and return the updated (with `returnDocument: "after"`)
resp. deleted document, or null when no document matches (the driver
semantics matched by the code's `if (!result) return 404` check).
`new ObjectId(id)` throws on a malformed id string, which the handlers
turn into a 400 response; we model the route's id parameter as either a
well-formed ObjectId (a `Nat`) or a malformed string.

A crucial point for the PUT handler: the body is destructured as
`const { task, status } = req.body` and written back with
`{ $set: { task, status } }`. A field absent from the request body is
`undefined` in JavaScript, and the MongoDB Node.js driver by default
(`ignoreUndefined: false`, the default for `new MongoClient(uri)` with no
options, as here) serializes `undefined` values as BSON null during write
operations. So a PUT body carrying only `status` sets the stored `task`
to null, and vice versa. Stored field values are therefore `Option String`
(`none` = BSON null), and a PUT body field is `Option String` (`none` =
absent); the `$set` stores exactly the body's value under this encoding.
-/

/-- JavaScript's `String.prototype.trim()`: strip whitespace from both
ends of the string (embedded structurally over the character list so that
it evaluates inside the kernel). -/
def jsTrim (s : String) : String :=
  ⟨((s.data.dropWhile Char.isWhitespace).reverse.dropWhile Char.isWhitespace).reverse⟩

/-- Whether `pat` occurs as a contiguous substring of the character list. -/
def containsSub (pat : List Char) : List Char → Bool
  | [] => pat.isEmpty
  | c :: rest => List.isPrefixOf pat (c :: rest) || containsSub pat rest

/-- JavaScript's `String.prototype.includes(pat)`. -/
def jsIncludes (s pat : String) : Bool :=
  containsSub pat.data s.data

/-- A document of the `todos` collection: `_id`, and the `task` / `status`
fields, whose value can be a string or BSON null (`none`). `insertOne`
always writes both fields, but a PUT can null either one (see above). -/
structure StoredTodo where
  _id : Nat
  task : Option String
  status : Option String
deriving Repr, DecidableEq

/-- Server state: the `todos` collection in natural order, plus the next
fresh ObjectId (modelling that `insertOne` generates a fresh `_id`). -/
structure ServerState where
  todos : List StoredTodo
  nextId : Nat
deriving Repr, DecidableEq

/-- The state of the server before any request: empty collection. -/
def emptyState : ServerState := { todos := [], nextId := 0 }

/-- A JSON response body: a list of todos (GET), a single todo document
(POST/PUT/DELETE success), or an `{ error: ... }` object. -/
inductive ResBody where
  | todos (ts : List StoredTodo)
  | todo (t : StoredTodo)
  | error (msg : String)
deriving Repr, DecidableEq

/-- An HTTP response: status code and JSON body (`res.json` alone sends
status 200). -/
structure HttpRes where
  status : Nat
  body : ResBody
deriving Repr, DecidableEq

/-- The `:id` path parameter: a well-formed ObjectId hex string (modelled
by the `Nat` it denotes) or a malformed string, on which
`new ObjectId(id)` throws. -/
inductive IdParam where
  | valid (n : Nat)
  | malformed (s : String)
deriving Repr, DecidableEq

/-- A POST /todos request body: each field is present (`some`) or absent
(`none`); `const { task, status = "pending" } = req.body`. -/
structure PostBody where
  task : Option String
  status : Option String
deriving Repr, DecidableEq

/-- A PUT /todos/:id request body: `const { task, status } = req.body`. -/
structure PutBody where
  task : Option String
  status : Option String
deriving Repr, DecidableEq

/-- `GET /todos` (server.js:47-55): `todosCollection.find().toArray()`,
sent with `res.json` (status 200). -/
def getTodos (st : ServerState) : HttpRes :=
  { status := 200, body := .todos st.todos }

/-- `POST /todos` (server.js:58-72): reject a missing or blank task with
400, otherwise insert `{ task: task.trim(), status }` (status defaulting
to "pending") and answer 201 with the created document. -/
def postTodos (st : ServerState) (b : PostBody) : HttpRes × ServerState :=
  match b.task with
  | none =>
    ({ status := 400, body := .error "Task is required" }, st)
  | some task =>
    if task == "" || jsTrim task == "" then
      ({ status := 400, body := .error "Task is required" }, st)
    else
      let status := b.status.getD "pending"
      let doc : StoredTodo :=
        { _id := st.nextId, task := some (jsTrim task), status := some status }
      ({ status := 201, body := .todo doc },
       { todos := st.todos ++ [doc], nextId := st.nextId + 1 })

/-- The effect of `$set: { task, status }` on a matched document: each
field is overwritten with the body's value, an absent (`undefined`) field
being serialized as null (`none`) by the driver's default
`ignoreUndefined: false`. The `_id` is untouched. -/
def applySet (b : PutBody) (t : StoredTodo) : StoredTodo :=
  { t with task := b.task, status := b.status }

/-- `findOneAndUpdate({_id: n}, {$set: ...}, {returnDocument: "after"})`:
update the first document whose `_id` matches and return it after the
update, or return `none` when no document matches; also give the updated
collection. -/
def findOneAndUpdate (todos : List StoredTodo) (n : Nat) (b : PutBody) :
    Option StoredTodo × List StoredTodo :=
  match todos with
  | [] => (none, [])
  | t :: rest =>
    if t._id = n then
      (some (applySet b t), applySet b t :: rest)
    else
      ((findOneAndUpdate rest n b).1, t :: (findOneAndUpdate rest n b).2)

/-- `findOneAndDelete({_id: n})`: remove the first document whose `_id`
matches and return it, or return `none` when no document matches; also
give the resulting collection. -/
def findOneAndDelete (todos : List StoredTodo) (n : Nat) :
    Option StoredTodo × List StoredTodo :=
  match todos with
  | [] => (none, [])
  | t :: rest =>
    if t._id = n then
      (some t, rest)
    else
      ((findOneAndDelete rest n).1, t :: (findOneAndDelete rest n).2)

/-- `PUT /todos/:id` (server.js:75-95): 400 when `new ObjectId(id)`
throws, 404 when no document matches, otherwise answer with the updated
document. -/
def putTodos (st : ServerState) (id : IdParam) (b : PutBody) :
    HttpRes × ServerState :=
  match id with
  | .malformed _ =>
    ({ status := 400, body := .error "Invalid ID format or update failed" }, st)
  | .valid n =>
    match findOneAndUpdate st.todos n b with
    | (none, _) =>
      ({ status := 404, body := .error "Todo not found" }, st)
    | (some doc, todos') =>
      ({ status := 200, body := .todo doc }, { st with todos := todos' })

/-- `DELETE /todos/:id` (server.js:98-115): 400 when `new ObjectId(id)`
throws, 404 when no document matches, otherwise answer with the deleted
document. -/
def deleteTodos (st : ServerState) (id : IdParam) : HttpRes × ServerState :=
  match id with
  | .malformed _ =>
    ({ status := 400, body := .error "Invalid ID format or delete failed" }, st)
  | .valid n =>
    match findOneAndDelete st.todos n with
    | (none, _) =>
      ({ status := 404, body := .error "Todo not found" }, st)
    | (some doc, todos') =>
      ({ status := 200, body := .todo doc }, { st with todos := todos' })

/-- A mutating request against the server. -/
inductive Op where
  | post (b : PostBody)
  | put (id : IdParam) (b : PutBody)
  | del (id : IdParam)
deriving Repr, DecidableEq

/-- The state after handling one mutating request. -/
def stepOp (st : ServerState) (op : Op) : ServerState :=
  match op with
  | .post b => (postTodos st b).2
  | .put id b => (putTodos st id b).2
  | .del id => (deleteTodos st id).2

/-- The state after handling a sequence of mutating requests. -/
def runOps (st : ServerState) (ops : List Op) : ServerState :=
  match ops with
  | [] => st
  | op :: rest => runOps (stepOp st op) rest

/-- `findOne({_id: n})` as an observer: the first stored document with
id `n` (the document the `_id` filters of the routes address). -/
def findTodo (todos : List StoredTodo) (n : Nat) : Option StoredTodo :=
  todos.find? (fun t => t._id == n)

/-- No stored document carries the ObjectId `n`. -/
def Absent (n : Nat) (st : ServerState) : Prop :=
  ∀ u ∈ st.todos, u._id ≠ n

/-- The request addresses the todo with ObjectId `n`. -/
def OpTargets (op : Op) (n : Nat) : Prop :=
  match op with
  | .post _ => False
  | .put id _ => id = .valid n
  | .del id => id = .valid n

/-- A one-document state used to instantiate theorems on concrete data
(the state after a single successful POST). -/
def oneTodoState : ServerState :=
  { todos := [{ _id := 0, task := some "a", status := some "pending" }],
    nextId := 1 }

/-! ## Client model -/

/-- A todo as the client holds it: the JSON documents returned by the
server, or the demo dataset (ids are strings on the client). -/
structure ClientTodo where
  _id : String
  task : String
  status : String
deriving Repr, DecidableEq

/-- `filteredTodos` (App.jsx:121-124, same code in the demo variant):
`todos.filter(todo => filter === "all" ? kept : todo.status === filter)`. -/
def filteredTodos (todos : List ClientTodo) (filter : String) : List ClientTodo :=
  todos.filter (fun todo => if filter == "all" then true else todo.status == filter)

/-- `validateTodoStructure` (todoUtils.js:72-98) on a well-typed todo
object: the three required fields are present by construction, so the
remaining checks are a status among the two literals and a task string
with non-blank content. -/
def validateTodoStructure (todo : ClientTodo) : Bool :=
  (todo.status == "pending" || todo.status == "done") &&
    !(jsTrim todo.task == "")

/-- `filterTodos` (todoUtils.js:122-138): "all" returns the list itself,
otherwise keep the todos that pass `validateTodoStructure` and match the
filter. -/
def filterTodos (todos : List ClientTodo) (filter : String) : List ClientTodo :=
  if filter == "all" then todos
  else todos.filter (fun todo => validateTodoStructure todo && todo.status == filter)

/-- The fetch/add-relevant part of the plain client's state (App.jsx). -/
structure AppState where
  todos : List ClientTodo
  newTask : String
  error : Option String
deriving Repr, DecidableEq

/-- The demo-variant client's state (unnamed/part_000): additionally
`isDemoMode`. -/
structure DemoAppState where
  todos : List ClientTodo
  newTask : String
  error : Option String
  isDemoMode : Bool
deriving Repr, DecidableEq

/-- Outcome of `fetch(BASE_URL + "/todos")`: a 2xx response carrying a
JSON array, a non-ok HTTP response (`!res.ok`), or a thrown network
error. -/
inductive FetchOutcome where
  | success (data : List ClientTodo)
  | httpError (code : Nat)
  | networkFailure (msg : String)
deriving Repr, DecidableEq

/-- JavaScript truthiness test `!BASE_URL`: true when `VITE_API_URL` is
unset (`none`) or the empty string. -/
def urlFalsy (baseUrl : Option String) : Bool :=
  match baseUrl with
  | none => true
  | some u => u == ""

/-- `fetchTodos` of the plain client (App.jsx:15-34): unset base URL sets
an error and returns; a successful fetch replaces the list and clears the
error; a non-ok response or a thrown fetch error sets an inline error
(prefix "Cannot connect to backend API: " plus the error message). -/
def fetchTodos (baseUrl : Option String) (r : FetchOutcome) (st : AppState) :
    AppState :=
  if urlFalsy baseUrl then
    { st with error := some "Backend API URL not configured. Please set VITE_API_URL environment variable." }
  else
    match r with
    | .success data => { st with todos := data, error := none }
    | .httpError code =>
      { st with
        error := some ("Cannot connect to backend API: HTTP error! status: " ++ toString code) }
    | .networkFailure msg =>
      { st with error := some ("Cannot connect to backend API: " ++ msg) }

/-- The fixed in-memory demo dataset of the demo-mode client variant
(unnamed/part_000:17-22). -/
def demoTodos : List ClientTodo :=
  [{ _id := "demo-1", task := "Welcome to the Todo App! 🎉", status := "pending" },
   { _id := "demo-2", task := "This is demo mode (backend not connected)", status := "pending" },
   { _id := "demo-3", task := "Add, edit, and delete todos", status := "done" },
   { _id := "demo-4", task := "Filter between All/Pending/Done", status := "done" }]

/-- `fetchTodos` of the demo-mode client variant (unnamed/part_000:25-52):
an unset or localhost base URL, and any fetch failure, switch to demo
mode, substitute the demo dataset and set an inline message. -/
def fetchTodosDemo (baseUrl : Option String) (r : FetchOutcome)
    (st : DemoAppState) : DemoAppState :=
  if urlFalsy baseUrl || jsIncludes (baseUrl.getD "") "localhost" then
    { st with
      isDemoMode := true
      todos := demoTodos
      error := some "Demo Mode: Backend API not connected. Deploy backend to see full functionality." }
  else
    match r with
    | .success data => { st with todos := data, isDemoMode := false, error := none }
    | .httpError code =>
      { st with
        isDemoMode := true
        todos := demoTodos
        error := some ("Demo Mode: Cannot connect to backend API. HTTP error! status: " ++ toString code) }
    | .networkFailure msg =>
      { st with
        isDemoMode := true
        todos := demoTodos
        error := some ("Demo Mode: Cannot connect to backend API. " ++ msg) }

/-- A POST request issued by the client's `addTodo`. -/
structure ClientPostReq where
  task : String
  status : String
deriving Repr, DecidableEq

/-- Outcome of the POST request issued by `addTodo`, when one is sent. -/
inductive PostOutcome where
  | ok (created : ClientTodo)
  | failure (msg : String)
deriving Repr, DecidableEq

/-- `addTodo` of the plain client (App.jsx:41-59): the pair is the next
state and the request sent to the server, if any. A blank input returns
immediately. -/
def addTodo (st : AppState) (outcome : PostOutcome) :
    AppState × Option ClientPostReq :=
  if jsTrim st.newTask == "" then
    (st, none)
  else
    match outcome with
    | .ok created =>
      ({ st with todos := st.todos ++ [created], newTask := "" },
       some { task := st.newTask, status := "pending" })
    | .failure msg =>
      ({ st with error := some msg },
       some { task := st.newTask, status := "pending" })

/-- `addTodo` of the demo-mode client variant (unnamed/part_000:59-89):
blank input returns immediately; in demo mode a local todo with id
`demo-<Date.now()>` is appended with no request; otherwise as the plain
client. -/
def addTodoDemo (st : DemoAppState) (now : Nat) (outcome : PostOutcome) :
    DemoAppState × Option ClientPostReq :=
  if jsTrim st.newTask == "" then
    (st, none)
  else if st.isDemoMode then
    ({ st with
       todos := st.todos ++
         [{ _id := "demo-" ++ toString now, task := st.newTask, status := "pending" }]
       newTask := "" }, none)
  else
    match outcome with
    | .ok created =>
      ({ st with todos := st.todos ++ [created], newTask := "" },
       some { task := st.newTask, status := "pending" })
    | .failure msg =>
      ({ st with error := some msg },
       some { task := st.newTask, status := "pending" })

/-! ## Theorems -/

/-- C1: a POST /todos request whose body contains a non-empty task (one
with non-whitespace content, the case its validation accepts) and no
status field creates a record with status "pending" and answers 201 with
the created Todo (id, task, status). -/
theorem post_create_defaults_pending (st : ServerState) (task : String)
    (h : jsTrim task ≠ "") :
    postTodos st { task := some task, status := none } =
      ({ status := 201,
         body := .todo { _id := st.nextId, task := some (jsTrim task),
                         status := some "pending" } },
       { todos := st.todos ++ [{ _id := st.nextId, task := some (jsTrim task),
                                 status := some "pending" }],
         nextId := st.nextId + 1 }) := by
  have htask : task ≠ "" := by
    intro he
    subst he
    exact h rfl
  simp [postTodos, htask, h]

theorem post_create_defaults_pending_witness :
    jsTrim "  buy milk " ≠ "" ∧
    postTodos emptyState { task := some "  buy milk ", status := none } =
      ({ status := 201,
         body := .todo { _id := emptyState.nextId,
                         task := some (jsTrim "  buy milk "),
                         status := some "pending" } },
       { todos := emptyState.todos ++
           [{ _id := emptyState.nextId, task := some (jsTrim "  buy milk "),
              status := some "pending" }],
         nextId := emptyState.nextId + 1 }) :=
  ⟨by decide, post_create_defaults_pending emptyState "  buy milk " (by decide)⟩

/-- C7: a POST /todos request whose body has a missing task, or a task
that is empty or consists only of whitespace, is answered with a 4xx
error message and the store is unchanged. -/
theorem post_blank_task_rejected (st : ServerState) (b : PostBody)
    (h : b.task = none ∨ ∃ s, b.task = some s ∧ jsTrim s = "") :
    400 ≤ (postTodos st b).1.status ∧ (postTodos st b).1.status < 500 ∧
    (postTodos st b).1.body = .error "Task is required" ∧
    (postTodos st b).2 = st := by
  rcases h with h | ⟨s, hs, htrim⟩
  · simp [postTodos, h]
  · simp [postTodos, hs, htrim]

theorem post_blank_task_rejected_witness :
    ((({ task := some "   ", status := none } : PostBody).task = none ∨
      ∃ s, ({ task := some "   ", status := none } : PostBody).task = some s ∧
        jsTrim s = "") ∧
     400 ≤ (postTodos emptyState { task := some "   ", status := none }).1.status ∧
     (postTodos emptyState { task := some "   ", status := none }).1.status < 500 ∧
     (postTodos emptyState { task := some "   ", status := none }).1.body =
       .error "Task is required" ∧
     (postTodos emptyState { task := some "   ", status := none }).2 = emptyState) :=
  ⟨Or.inr ⟨"   ", rfl, by decide⟩,
   post_blank_task_rejected emptyState { task := some "   ", status := none }
     (Or.inr ⟨"   ", rfl, by decide⟩)⟩

/-- C9: for a POST /todos request with a non-empty task (whatever the
status field), the stored record's task and the 201 response body's task
both equal the input task with leading and trailing whitespace removed. -/
theorem post_trims_task (st : ServerState) (task : String)
    (bstatus : Option String) (h : jsTrim task ≠ "") :
    (postTodos st { task := some task, status := bstatus }).1.body =
      .todo { _id := st.nextId, task := some (jsTrim task),
              status := some (bstatus.getD "pending") } ∧
    (postTodos st { task := some task, status := bstatus }).2.todos =
      st.todos ++ [{ _id := st.nextId, task := some (jsTrim task),
                     status := some (bstatus.getD "pending") }] := by
  have htask : task ≠ "" := by
    intro he
    subst he
    exact h rfl
  simp [postTodos, htask, h]

theorem post_trims_task_witness :
    jsTrim " call mom  " ≠ "" ∧
    ((postTodos emptyState { task := some " call mom  ", status := some "done" }).1.body =
      .todo { _id := emptyState.nextId, task := some (jsTrim " call mom  "),
              status := some ((some "done").getD "pending") } ∧
     (postTodos emptyState { task := some " call mom  ", status := some "done" }).2.todos =
      emptyState.todos ++
        [{ _id := emptyState.nextId, task := some (jsTrim " call mom  "),
           status := some ((some "done").getD "pending") }]) :=
  ⟨by decide, post_trims_task emptyState " call mom  " (some "done") (by decide)⟩

/-! ### Collection lemmas -/

theorem applySet_id (b : PutBody) (t : StoredTodo) :
    (applySet b t)._id = t._id := rfl

theorem findTodo_cons (t : StoredTodo) (rest : List StoredTodo) (n : Nat) :
    findTodo (t :: rest) n = if t._id = n then some t else findTodo rest n := by
  by_cases h : t._id = n
  · rw [if_pos h]
    exact List.find?_cons_of_pos _ (by simp [h])
  · rw [if_neg h]
    exact List.find?_cons_of_neg _ (by simp [h])

theorem findTodo_append_some (todos : List StoredTodo) (n : Nat) (t x : StoredTodo)
    (h : findTodo todos n = some t) :
    findTodo (todos ++ [x]) n = some t := by
  rw [findTodo, List.find?_append]
  rw [findTodo] at h
  rw [h]
  rfl

theorem findOneAndUpdate_fst (todos : List StoredTodo) (n : Nat) (b : PutBody) :
    (findOneAndUpdate todos n b).1 = (findTodo todos n).map (applySet b) := by
  induction todos with
  | nil => rfl
  | cons t rest ih =>
    rw [findTodo_cons]
    by_cases h : t._id = n
    · simp [findOneAndUpdate, h]
    · simp [findOneAndUpdate, h, ih]

theorem findOneAndDelete_fst (todos : List StoredTodo) (n : Nat) :
    (findOneAndDelete todos n).1 = findTodo todos n := by
  induction todos with
  | nil => rfl
  | cons t rest ih =>
    rw [findTodo_cons]
    by_cases h : t._id = n
    · simp [findOneAndDelete, h]
    · simp [findOneAndDelete, h, ih]

theorem mem_findOneAndDelete_snd (todos : List StoredTodo) (n : Nat)
    (u : StoredTodo) (hu : u ∈ (findOneAndDelete todos n).2) :
    u ∈ todos := by
  induction todos with
  | nil => simp [findOneAndDelete] at hu
  | cons t rest ih =>
    by_cases h : t._id = n
    · simp only [findOneAndDelete, if_pos h] at hu
      exact List.mem_cons_of_mem _ hu
    · simp only [findOneAndDelete, if_neg h, List.mem_cons] at hu
      rcases hu with hu | hu
      · exact hu ▸ List.mem_cons_self _ _
      · exact List.mem_cons_of_mem _ (ih hu)

theorem mem_findOneAndUpdate_snd (todos : List StoredTodo) (n : Nat) (b : PutBody)
    (u : StoredTodo) (hu : u ∈ (findOneAndUpdate todos n b).2) :
    ∃ v ∈ todos, u._id = v._id := by
  induction todos with
  | nil => simp [findOneAndUpdate] at hu
  | cons t rest ih =>
    by_cases h : t._id = n
    · simp only [findOneAndUpdate, if_pos h, List.mem_cons] at hu
      rcases hu with hu | hu
      · exact ⟨t, List.mem_cons_self _ _, by rw [hu]; rfl⟩
      · exact ⟨u, List.mem_cons_of_mem _ hu, rfl⟩
    · simp only [findOneAndUpdate, if_neg h, List.mem_cons] at hu
      rcases hu with hu | hu
      · exact ⟨t, List.mem_cons_self _ _, by rw [hu]⟩
      · rcases ih hu with ⟨v, hv, he⟩
        exact ⟨v, List.mem_cons_of_mem _ hv, he⟩

theorem findOneAndDelete_snd_absent (todos : List StoredTodo) (n : Nat)
    (t : StoredTodo) (hnodup : (todos.map (fun u => u._id)).Nodup)
    (hfind : findTodo todos n = some t) :
    ∀ u ∈ (findOneAndDelete todos n).2, u._id ≠ n := by
  induction todos with
  | nil => simp [findTodo] at hfind
  | cons v rest ih =>
    rw [findTodo_cons] at hfind
    rw [List.map_cons, List.nodup_cons] at hnodup
    by_cases hv : v._id = n
    · intro u hu
      simp only [findOneAndDelete, if_pos hv] at hu
      intro hun
      apply hnodup.1
      rw [hv, ← hun]
      exact List.mem_map_of_mem _ hu
    · rw [if_neg hv] at hfind
      intro u hu
      simp only [findOneAndDelete, if_neg hv, List.mem_cons] at hu
      rcases hu with hu | hu
      · rw [hu]; exact hv
      · exact ih hnodup.2 hfind u hu

theorem findTodo_findOneAndUpdate_self (todos : List StoredTodo) (n : Nat)
    (b : PutBody) (t : StoredTodo) (hfind : findTodo todos n = some t) :
    findTodo (findOneAndUpdate todos n b).2 n = some (applySet b t) := by
  induction todos with
  | nil => simp [findTodo] at hfind
  | cons v rest ih =>
    rw [findTodo_cons] at hfind
    by_cases hv : v._id = n
    · rw [if_pos hv] at hfind
      injection hfind with hfind
      subst hfind
      simp only [findOneAndUpdate, if_pos hv]
      rw [findTodo_cons, if_pos (by rw [applySet_id]; exact hv)]
    · rw [if_neg hv] at hfind
      simp only [findOneAndUpdate, if_neg hv]
      rw [findTodo_cons, if_neg hv]
      exact ih hfind

theorem findTodo_findOneAndUpdate_other (todos : List StoredTodo) (m : Nat)
    (b : PutBody) (n : Nat) (hmn : m ≠ n) :
    findTodo (findOneAndUpdate todos m b).2 n = findTodo todos n := by
  induction todos with
  | nil => rfl
  | cons v rest ih =>
    by_cases hv : v._id = m
    · simp only [findOneAndUpdate, if_pos hv]
      rw [findTodo_cons, if_neg (by rw [applySet_id, hv]; exact hmn),
        findTodo_cons, if_neg (by rw [hv]; exact hmn)]
    · simp only [findOneAndUpdate, if_neg hv]
      rw [findTodo_cons, findTodo_cons, ih]

theorem findTodo_findOneAndDelete_other (todos : List StoredTodo) (m n : Nat)
    (hmn : m ≠ n) :
    findTodo (findOneAndDelete todos m).2 n = findTodo todos n := by
  induction todos with
  | nil => rfl
  | cons v rest ih =>
    by_cases hv : v._id = m
    · simp only [findOneAndDelete, if_pos hv]
      rw [findTodo_cons, if_neg (by rw [hv]; exact hmn)]
    · simp only [findOneAndDelete, if_neg hv]
      rw [findTodo_cons, findTodo_cons, ih]

/-! ### Step lemmas -/

theorem stepOp_preserves_absent (st : ServerState) (op : Op) (n : Nat)
    (h : Absent n st) (hn : n < st.nextId) :
    Absent n (stepOp st op) ∧ n < (stepOp st op).nextId := by
  cases op with
  | post b =>
    cases hb : b.task with
    | none =>
      simp only [stepOp, postTodos, hb]
      exact ⟨h, hn⟩
    | some task =>
      by_cases hcond : (task == "" || jsTrim task == "") = true
      · simp only [stepOp, postTodos, hb, hcond, if_pos]
        exact ⟨h, hn⟩
      · simp only [stepOp, postTodos, hb, hcond, if_neg, Bool.not_eq_true]
        constructor
        · intro u hu
          rcases List.mem_append.mp hu with hu | hu
          · exact h u hu
          · simp only [List.mem_singleton] at hu
            subst hu
            show st.nextId ≠ n
            omega
        · omega
  | put id b =>
    cases id with
    | malformed s =>
      simp only [stepOp, putTodos]
      exact ⟨h, hn⟩
    | valid m =>
      rcases hfu : findOneAndUpdate st.todos m b with ⟨r, todos'⟩
      cases r with
      | none =>
        simp only [stepOp, putTodos, hfu]
        exact ⟨h, hn⟩
      | some doc =>
        simp only [stepOp, putTodos, hfu]
        refine ⟨?_, hn⟩
        intro u hu
        have hmem : u ∈ (findOneAndUpdate st.todos m b).2 := by
          rw [hfu]
          exact hu
        rcases mem_findOneAndUpdate_snd st.todos m b u hmem with ⟨v, hv, he⟩
        rw [he]
        exact h v hv
  | del id =>
    cases id with
    | malformed s =>
      simp only [stepOp, deleteTodos]
      exact ⟨h, hn⟩
    | valid m =>
      rcases hfd : findOneAndDelete st.todos m with ⟨r, todos'⟩
      cases r with
      | none =>
        simp only [stepOp, deleteTodos, hfd]
        exact ⟨h, hn⟩
      | some doc =>
        simp only [stepOp, deleteTodos, hfd]
        refine ⟨?_, hn⟩
        intro u hu
        have hmem : u ∈ (findOneAndDelete st.todos m).2 := by
          rw [hfd]
          exact hu
        exact h u (mem_findOneAndDelete_snd st.todos m u hmem)

theorem runOps_preserves_absent (ops : List Op) :
    ∀ st n, Absent n st → n < st.nextId → Absent n (runOps st ops) := by
  induction ops with
  | nil =>
    intro st n h _
    exact h
  | cons op rest ih =>
    intro st n h hn
    obtain ⟨h', hn'⟩ := stepOp_preserves_absent st op n h hn
    exact ih _ _ h' hn'

theorem stepOp_preserves_found (st : ServerState) (op : Op) (n : Nat)
    (t : StoredTodo) (hfind : findTodo st.todos n = some t)
    (hn : n < st.nextId) (hop : ¬ OpTargets op n) :
    findTodo (stepOp st op).todos n = some t ∧ n < (stepOp st op).nextId := by
  cases op with
  | post b =>
    cases hb : b.task with
    | none =>
      simp only [stepOp, postTodos, hb]
      exact ⟨hfind, hn⟩
    | some task =>
      by_cases hcond : (task == "" || jsTrim task == "") = true
      · simp only [stepOp, postTodos, hb, hcond, if_pos]
        exact ⟨hfind, hn⟩
      · simp only [stepOp, postTodos, hb, hcond, if_neg, Bool.not_eq_true]
        exact ⟨findTodo_append_some _ _ _ _ hfind, by omega⟩
  | put id b =>
    cases id with
    | malformed s =>
      simp only [stepOp, putTodos]
      exact ⟨hfind, hn⟩
    | valid m =>
      have hmn : m ≠ n := by
        intro he
        exact hop (by rw [OpTargets, he])
      rcases hfu : findOneAndUpdate st.todos m b with ⟨r, todos'⟩
      cases r with
      | none =>
        simp only [stepOp, putTodos, hfu]
        exact ⟨hfind, hn⟩
      | some doc =>
        simp only [stepOp, putTodos, hfu]
        refine ⟨?_, hn⟩
        have := findTodo_findOneAndUpdate_other st.todos m b n hmn
        rw [hfu] at this
        rw [this]
        exact hfind
  | del id =>
    cases id with
    | malformed s =>
      simp only [stepOp, deleteTodos]
      exact ⟨hfind, hn⟩
    | valid m =>
      have hmn : m ≠ n := by
        intro he
        exact hop (by rw [OpTargets, he])
      rcases hfd : findOneAndDelete st.todos m with ⟨r, todos'⟩
      cases r with
      | none =>
        simp only [stepOp, deleteTodos, hfd]
        exact ⟨hfind, hn⟩
      | some doc =>
        simp only [stepOp, deleteTodos, hfd]
        refine ⟨?_, hn⟩
        have := findTodo_findOneAndDelete_other st.todos m n hmn
        rw [hfd] at this
        rw [this]
        exact hfind

theorem runOps_preserves_found (ops : List Op) :
    ∀ st n t, findTodo st.todos n = some t → n < st.nextId →
      (∀ op ∈ ops, ¬ OpTargets op n) →
      findTodo (runOps st ops).todos n = some t := by
  induction ops with
  | nil =>
    intro st n t h _ _
    exact h
  | cons op rest ih =>
    intro st n t h hn hops
    obtain ⟨h', hn'⟩ :=
      stepOp_preserves_found st op n t h hn (hops op (List.mem_cons_self _ _))
    exact ih _ _ _ h' hn' (fun o ho => hops o (List.mem_cons_of_mem _ ho))

/-- C2: on a DELETE /todos/:id request with a well-formed ObjectId, if no
stored todo has that id the server answers 404 (not found) and the
collection is unchanged; if a stored todo has that id, that todo is
returned and no todo with that id appears in any subsequent GET /todos
result (over any further request sequence). The hypotheses (distinct ids,
ids below the id counter) hold for every state the server can reach,
since `insertOne` generates fresh ObjectIds. -/
theorem delete_404_or_removes (st : ServerState) (n : Nat)
    (hnodup : (st.todos.map (fun u => u._id)).Nodup)
    (hfresh : ∀ u ∈ st.todos, u._id < st.nextId) :
    (findTodo st.todos n = none →
      (deleteTodos st (.valid n)).1 =
        { status := 404, body := .error "Todo not found" } ∧
      (deleteTodos st (.valid n)).2 = st) ∧
    (∀ t, findTodo st.todos n = some t →
      (deleteTodos st (.valid n)).1 = { status := 200, body := .todo t } ∧
      ∀ ops ts,
        (getTodos (runOps (deleteTodos st (.valid n)).2 ops)).body = .todos ts →
        ∀ u ∈ ts, u._id ≠ n) := by
  constructor
  · intro hnone
    rcases hfd : findOneAndDelete st.todos n with ⟨r, rest⟩
    have hr : r = none := by
      have hfst := findOneAndDelete_fst st.todos n
      rw [hfd, hnone] at hfst
      exact hfst
    subst hr
    simp [deleteTodos, hfd]
  · intro t hfind
    rcases hfd : findOneAndDelete st.todos n with ⟨r, rest⟩
    have hr : r = some t := by
      have hfst := findOneAndDelete_fst st.todos n
      rw [hfd, hfind] at hfst
      exact hfst
    subst hr
    constructor
    · simp [deleteTodos, hfd]
    · intro ops ts hts u hu
      have hst' : (deleteTodos st (.valid n)).2 = { st with todos := rest } := by
        simp [deleteTodos, hfd]
      have habs : Absent n { st with todos := rest } := by
        intro v hv
        exact findOneAndDelete_snd_absent st.todos n t hnodup hfind v
          (by rw [hfd]; exact hv)
      have hlt : n < st.nextId := by
        have hmem : t ∈ st.todos := List.mem_of_find?_eq_some hfind
        have hid : t._id = n := by
          have := List.find?_some hfind
          simpa using this
        rw [← hid]
        exact hfresh t hmem
      have hall := runOps_preserves_absent ops { st with todos := rest } n habs hlt
      rw [hst'] at hts
      simp only [getTodos, ResBody.todos.injEq] at hts
      subst hts
      exact hall u hu

theorem delete_404_or_removes_witness :
    ((oneTodoState.todos.map (fun u => u._id)).Nodup ∧
     (∀ u ∈ oneTodoState.todos, u._id < oneTodoState.nextId)) ∧
    ((findTodo oneTodoState.todos 7 = none →
      (deleteTodos oneTodoState (.valid 7)).1 =
        { status := 404, body := .error "Todo not found" } ∧
      (deleteTodos oneTodoState (.valid 7)).2 = oneTodoState) ∧
    (∀ t, findTodo oneTodoState.todos 7 = some t →
      (deleteTodos oneTodoState (.valid 7)).1 = { status := 200, body := .todo t } ∧
      ∀ ops ts,
        (getTodos (runOps (deleteTodos oneTodoState (.valid 7)).2 ops)).body =
          .todos ts →
        ∀ u ∈ ts, u._id ≠ 7)) :=
  ⟨⟨by decide, by decide⟩,
   delete_404_or_removes oneTodoState 7 (by decide) (by decide)⟩

/-- C5: a PUT /todos/:id on an existing todo whose body carries status
"done" (or "pending") answers 200 with the updated record, whose status
is that value; and every subsequent GET /todos read, across any further
requests that do not address this id, finds the todo with the updated
status. -/
theorem put_status_reflected_in_reads (st : ServerState) (n : Nat)
    (t : StoredTodo) (s : String) (btask : Option String)
    (_hs : s = "done" ∨ s = "pending")
    (hfind : findTodo st.todos n = some t)
    (hfresh : ∀ u ∈ st.todos, u._id < st.nextId) :
    (putTodos st (.valid n) { task := btask, status := some s }).1 =
      { status := 200,
        body := .todo (applySet { task := btask, status := some s } t) } ∧
    (applySet { task := btask, status := some s } t).status = some s ∧
    (∀ ops, (∀ op ∈ ops, ¬ OpTargets op n) →
      ∀ ts,
        (getTodos (runOps
          (putTodos st (.valid n) { task := btask, status := some s }).2 ops)).body =
          .todos ts →
        findTodo ts n = some (applySet { task := btask, status := some s } t)) := by
  rcases hfu : findOneAndUpdate st.todos n { task := btask, status := some s }
    with ⟨r, todos'⟩
  have hr : r = some (applySet { task := btask, status := some s } t) := by
    have hfst := findOneAndUpdate_fst st.todos n { task := btask, status := some s }
    rw [hfu, hfind] at hfst
    exact hfst
  subst hr
  refine ⟨by simp [putTodos, hfu], rfl, ?_⟩
  intro ops hops ts hts
  have hst' : (putTodos st (.valid n) { task := btask, status := some s }).2 =
      { st with todos := todos' } := by
    simp [putTodos, hfu]
  rw [hst'] at hts
  have hfind' : findTodo todos' n =
      some (applySet { task := btask, status := some s } t) := by
    have hself := findTodo_findOneAndUpdate_self st.todos n
      { task := btask, status := some s } t hfind
    rw [hfu] at hself
    exact hself
  have hlt : n < st.nextId := by
    have hmem : t ∈ st.todos := List.mem_of_find?_eq_some hfind
    have hid : t._id = n := by
      have := List.find?_some hfind
      simpa using this
    rw [← hid]
    exact hfresh t hmem
  have hrun := runOps_preserves_found ops { st with todos := todos' } n
    (applySet { task := btask, status := some s } t) hfind' hlt hops
  simp only [getTodos, ResBody.todos.injEq] at hts
  subst hts
  exact hrun

theorem put_status_reflected_in_reads_witness :
    (("done" = "done" ∨ "done" = "pending") ∧
     findTodo oneTodoState.todos 0 =
       some { _id := 0, task := some "a", status := some "pending" } ∧
     (∀ u ∈ oneTodoState.todos, u._id < oneTodoState.nextId)) ∧
    ((putTodos oneTodoState (.valid 0) { task := none, status := some "done" }).1 =
      { status := 200,
        body := .todo (applySet { task := none, status := some "done" }
          { _id := 0, task := some "a", status := some "pending" }) } ∧
     (applySet { task := none, status := some "done" }
        { _id := 0, task := some "a", status := some "pending" }).status =
       some "done" ∧
     (∀ ops, (∀ op ∈ ops, ¬ OpTargets op 0) →
       ∀ ts,
         (getTodos (runOps
           (putTodos oneTodoState (.valid 0)
             { task := none, status := some "done" }).2 ops)).body = .todos ts →
         findTodo ts 0 = some (applySet { task := none, status := some "done" }
           { _id := 0, task := some "a", status := some "pending" }))) :=
  ⟨⟨Or.inl rfl, by decide, by decide⟩,
   put_status_reflected_in_reads oneTodoState 0
     { _id := 0, task := some "a", status := some "pending" } "done" none
     (Or.inl rfl) (by decide) (by decide)⟩

/-- C3 (refuted by the code): on the state holding the single todo
{_id: 0, task: "a", status: "pending"}, a PUT /todos/0 whose body
carries only a status — exactly the body the frontend's `updateStatus`
sends — answers with, and stores, a record whose task is null rather
than the previously stored task: `$set: { task: undefined, status }`
serializes the absent task field as null. -/
theorem put_status_only_clobbers_task :
    putTodos oneTodoState (.valid 0) { task := none, status := some "done" } =
      ({ status := 200,
         body := .todo { _id := 0, task := none, status := some "done" } },
       { todos := [{ _id := 0, task := none, status := some "done" }],
         nextId := 1 }) ∧
    ResBody.todo { _id := 0, task := none, status := some "done" } ≠
      ResBody.todo { _id := 0, task := some "a", status := some "done" } := by
  decide

/-- C4 (refuted by the code): from the empty store, POST {task: "buy
milk"} followed by PUT /todos/0 {status: "done"} — the frontend's
add-then-mark-done flow — leaves a stored todo whose task is null, and a
single POST {task: "x", status: "banana"} stores a status outside
{"pending", "done"}; the claimed invariant fails on both counts. -/
theorem store_invariant_violated :
    (runOps emptyState
      [.post { task := some "buy milk", status := none },
       .put (.valid 0) { task := none, status := some "done" }]).todos =
      [{ _id := 0, task := none, status := some "done" }] ∧
    (runOps emptyState
      [.post { task := some "x", status := some "banana" }]).todos =
      [{ _id := 0, task := some "x", status := some "banana" }] := by
  decide

/-- C6: for a list of well-formed client todos and a filter value
"pending" or "done", both the component's `filteredTodos` and the
utility `filterTodos` return exactly the todos whose status equals the
filter (each included, no other), and filter "all" returns the whole
list unchanged. -/
theorem filter_returns_matching_subset (todos : List ClientTodo) (f : String)
    (hf : f = "pending" ∨ f = "done")
    (hvalid : ∀ t ∈ todos, validateTodoStructure t = true) :
    filteredTodos todos f = todos.filter (fun t => t.status == f) ∧
    filterTodos todos f = todos.filter (fun t => t.status == f) ∧
    (∀ t, t ∈ filteredTodos todos f ↔ t ∈ todos ∧ t.status = f) ∧
    filteredTodos todos "all" = todos ∧
    filterTodos todos "all" = todos := by
  have hfa : (f == "all") = false := by
    rcases hf with h | h <;> simp [h]
  have h1 : filteredTodos todos f = todos.filter (fun t => t.status == f) := by
    unfold filteredTodos
    apply List.filter_congr
    intro t _
    simp [hfa]
  refine ⟨h1, ?_, ?_, ?_, ?_⟩
  · unfold filterTodos
    rw [if_neg (by simp [hfa])]
    apply List.filter_congr
    intro t ht
    simp [hvalid t ht]
  · intro t
    rw [h1, List.mem_filter]
    simp
  · unfold filteredTodos
    simp
  · unfold filterTodos
    simp

theorem filter_returns_matching_subset_witness :
    (("pending" = "pending" ∨ "pending" = "done") ∧
     (∀ t ∈ demoTodos, validateTodoStructure t = true)) ∧
    (filteredTodos demoTodos "pending" =
        demoTodos.filter (fun t => t.status == "pending") ∧
     filterTodos demoTodos "pending" =
        demoTodos.filter (fun t => t.status == "pending") ∧
     (∀ t, t ∈ filteredTodos demoTodos "pending" ↔
        t ∈ demoTodos ∧ t.status = "pending") ∧
     filteredTodos demoTodos "all" = demoTodos ∧
     filterTodos demoTodos "all" = demoTodos) :=
  ⟨⟨Or.inl rfl, by decide⟩,
   filter_returns_matching_subset demoTodos "pending" (Or.inl rfl) (by decide)⟩

/-- C8: whenever the list fetch fails (non-ok HTTP response or thrown
network error), the plain client sets a non-null inline error message,
and the demo-mode variant additionally replaces the todo list with the
fixed 4-item in-memory demo dataset. -/
theorem fetch_failure_error_demo_fallback (url : String)
    (r : FetchOutcome) (st : AppState) (dst : DemoAppState)
    (hurl : urlFalsy (some url) = false)
    (hlocal : jsIncludes url "localhost" = false)
    (hfail : ∀ data, r ≠ .success data) :
    (fetchTodos (some url) r st).error ≠ none ∧
    (fetchTodosDemo (some url) r dst).error ≠ none ∧
    (fetchTodosDemo (some url) r dst).todos = demoTodos ∧
    demoTodos.length = 4 := by
  cases r with
  | success data => exact absurd rfl (hfail data)
  | httpError code =>
    refine ⟨?_, ?_, ?_, rfl⟩ <;> simp [fetchTodos, fetchTodosDemo, hurl, hlocal]
  | networkFailure msg =>
    refine ⟨?_, ?_, ?_, rfl⟩ <;> simp [fetchTodos, fetchTodosDemo, hurl, hlocal]

theorem fetch_failure_error_demo_fallback_witness :
    (urlFalsy (some "https://api.example.com") = false ∧
     jsIncludes "https://api.example.com" "localhost" = false ∧
     (∀ data, (FetchOutcome.httpError 500) ≠ .success data)) ∧
    ((fetchTodos (some "https://api.example.com") (.httpError 500)
        { todos := [], newTask := "", error := none }).error ≠ none ∧
     (fetchTodosDemo (some "https://api.example.com") (.httpError 500)
        { todos := [], newTask := "", error := none, isDemoMode := false }).error ≠
       none ∧
     (fetchTodosDemo (some "https://api.example.com") (.httpError 500)
        { todos := [], newTask := "", error := none, isDemoMode := false }).todos =
       demoTodos ∧
     demoTodos.length = 4) :=
  ⟨⟨by decide, by decide, fun data h => by cases h⟩,
   fetch_failure_error_demo_fallback "https://api.example.com" (.httpError 500)
     { todos := [], newTask := "", error := none }
     { todos := [], newTask := "", error := none, isDemoMode := false }
     (by decide) (by decide) (fun data h => by cases h)⟩

/-- C10: invoking addTodo while the input text is empty or whitespace
only leaves the whole client state (todo list, input field, error)
unchanged and issues no request, in both the plain and the demo-mode
variants. -/
theorem add_todo_blank_is_noop (st : AppState) (dst : DemoAppState)
    (o o' : PostOutcome) (now : Nat)
    (h : jsTrim st.newTask = "") (h' : jsTrim dst.newTask = "") :
    addTodo st o = (st, none) ∧
    addTodoDemo dst now o' = (dst, none) := by
  constructor
  · unfold addTodo
    rw [if_pos (by simp [h])]
  · unfold addTodoDemo
    rw [if_pos (by simp [h'])]

theorem add_todo_blank_is_noop_witness :
    (jsTrim ("  " : String) = "" ∧ jsTrim ("  " : String) = "") ∧
    (addTodo { todos := [], newTask := "  ", error := none } (.failure "x") =
      ({ todos := [], newTask := "  ", error := none }, none) ∧
     addTodoDemo { todos := [], newTask := "  ", error := none, isDemoMode := true }
        3 (.failure "x") =
      ({ todos := [], newTask := "  ", error := none, isDemoMode := true }, none)) :=
  ⟨⟨by decide, by decide⟩,
   add_todo_blank_is_noop { todos := [], newTask := "  ", error := none }
     { todos := [], newTask := "  ", error := none, isDemoMode := true }
     (.failure "x") (.failure "x") 3 (by decide) (by decide)⟩

/-! ### Reachable states satisfy the id hypotheses -/

theorem findOneAndUpdate_snd_map_id (todos : List StoredTodo) (n : Nat)
    (b : PutBody) :
    (findOneAndUpdate todos n b).2.map (fun u => u._id) =
      todos.map (fun u => u._id) := by
  induction todos with
  | nil => rfl
  | cons t rest ih =>
    by_cases h : t._id = n
    · simp [findOneAndUpdate, h, applySet_id]
    · simp [findOneAndUpdate, h, ih]

theorem findOneAndDelete_snd_sublist (todos : List StoredTodo) (n : Nat) :
    (findOneAndDelete todos n).2.Sublist todos := by
  induction todos with
  | nil => simp [findOneAndDelete]
  | cons t rest ih =>
    by_cases h : t._id = n
    · simp only [findOneAndDelete, if_pos h]
      exact List.sublist_cons_self _ _
    · simp only [findOneAndDelete, if_neg h]
      exact List.Sublist.cons₂ _ ih

theorem stepOp_wellFormed (st : ServerState) (op : Op)
    (hnodup : (st.todos.map (fun u => u._id)).Nodup)
    (hfresh : ∀ u ∈ st.todos, u._id < st.nextId) :
    ((stepOp st op).todos.map (fun u => u._id)).Nodup ∧
    ∀ u ∈ (stepOp st op).todos, u._id < (stepOp st op).nextId := by
  cases op with
  | post b =>
    cases hb : b.task with
    | none =>
      simp only [stepOp, postTodos, hb]
      exact ⟨hnodup, hfresh⟩
    | some task =>
      by_cases hcond : (task == "" || jsTrim task == "") = true
      · simp only [stepOp, postTodos, hb, hcond, if_pos]
        exact ⟨hnodup, hfresh⟩
      · simp only [stepOp, postTodos, hb, hcond, if_neg, Bool.not_eq_true]
        constructor
        · rw [List.map_append]
          refine List.Nodup.append hnodup (by simp) ?_
          intro a ha hb'
          simp only [List.map_cons, List.map_nil, List.mem_singleton] at hb'
          rcases List.mem_map.mp ha with ⟨u, hu, he⟩
          have := hfresh u hu
          omega
        · intro u hu
          rcases List.mem_append.mp hu with hu | hu
          · have := hfresh u hu
            omega
          · simp only [List.mem_singleton] at hu
            subst hu
            show st.nextId < st.nextId + 1
            omega
  | put id b =>
    cases id with
    | malformed s =>
      simp only [stepOp, putTodos]
      exact ⟨hnodup, hfresh⟩
    | valid m =>
      rcases hfu : findOneAndUpdate st.todos m b with ⟨r, todos'⟩
      cases r with
      | none =>
        simp only [stepOp, putTodos, hfu]
        exact ⟨hnodup, hfresh⟩
      | some doc =>
        simp only [stepOp, putTodos, hfu]
        constructor
        · have := findOneAndUpdate_snd_map_id st.todos m b
          rw [hfu] at this
          rw [this]
          exact hnodup
        · intro u hu
          have hmem : u ∈ (findOneAndUpdate st.todos m b).2 := by
            rw [hfu]
            exact hu
          rcases mem_findOneAndUpdate_snd st.todos m b u hmem with ⟨v, hv, he⟩
          rw [he]
          exact hfresh v hv
  | del id =>
    cases id with
    | malformed s =>
      simp only [stepOp, deleteTodos]
      exact ⟨hnodup, hfresh⟩
    | valid m =>
      rcases hfd : findOneAndDelete st.todos m with ⟨r, todos'⟩
      cases r with
      | none =>
        simp only [stepOp, deleteTodos, hfd]
        exact ⟨hnodup, hfresh⟩
      | some doc =>
        simp only [stepOp, deleteTodos, hfd]
        constructor
        · have hsub := findOneAndDelete_snd_sublist st.todos m
          rw [hfd] at hsub
          exact List.Nodup.sublist (hsub.map _) hnodup
        · intro u hu
          have hmem : u ∈ (findOneAndDelete st.todos m).2 := by
            rw [hfd]
            exact hu
          exact hfresh u (mem_findOneAndDelete_snd st.todos m u hmem)

theorem runOps_wellFormed (ops : List Op) :
    ∀ st, (st.todos.map (fun u => u._id)).Nodup →
      (∀ u ∈ st.todos, u._id < st.nextId) →
      ((runOps st ops).todos.map (fun u => u._id)).Nodup ∧
      ∀ u ∈ (runOps st ops).todos, u._id < (runOps st ops).nextId := by
  induction ops with
  | nil =>
    intro st hnodup hfresh
    exact ⟨hnodup, hfresh⟩
  | cons op rest ih =>
    intro st hnodup hfresh
    obtain ⟨h1, h2⟩ := stepOp_wellFormed st op hnodup hfresh
    exact ih _ h1 h2

theorem reachable_wellFormed (ops : List Op) :
    (((runOps emptyState ops).todos.map (fun u => u._id)).Nodup ∧
     ∀ u ∈ (runOps emptyState ops).todos, u._id < (runOps emptyState ops).nextId) :=
  runOps_wellFormed ops emptyState (by simp [emptyState]) (by simp [emptyState])
